import Mathlib

/-!
# evolving-rpc: the server core (`evolving-server/EvolvingServer.go`)

A shallow embedding of the connection lifecycle and dispatch engine of the
evolving-rpc server, followed by the properties of the specification that were
checked against it.

Modelling conventions.

* Go byte slices and Go strings are both modelled by `String`: the conversions
  `string(b)` and `[]byte(s)` keep the content.
* A `*netx.DataPack` is modelled by a value carrying its pointer identity and
  the text of its remote address.
* A call made on a function parameter (`sendMsg`) or on a handler taken from the
  command table is modelled by the event it emits: the functions return the
  sequence of calls they make, in order.
* A Go map is an association list in which every key occurs at most once as far
  as lookups are concerned (the first entry wins, writes replace it); the nil
  map is `none`.
* A call that cannot return is reported as an outcome: `panic` for a runtime
  panic, `blocked` for a goroutine that is parked.
* Each function is run as one goroutine on its own; a parked goroutine stays
  parked, since no other goroutine runs meanwhile.
* Logging is modelled in the writer loop only, where it is the whole effect of
  two branches.
-/

namespace EvolvingRpc

/-! ## Data model -/

/-- A message of the wire codec (`netx.IMessage`): command name and body. -/
structure Message where
  command : String
  body : String
deriving DecidableEq, Repr

/-- The constructor `netx.NewDefaultMessage(command, body)`. -/
def NewDefaultMessage (command body : String) : Message :=
  { command := command, body := body }

/-- A connection (`*netx.DataPack`): pointer identity and remote address. -/
structure DataPack where
  ptr : Nat
  remoteAddr : String
deriving DecidableEq, Repr

/-- Modelled from the spec: the declaration of `model.ServiceInfo` is not under
src/. The five fields are the ones `Register` reads and writes; their types follow
the descriptor of the specification (name, host, port, protocol, metadata). -/
structure ServiceInfo where
  ServiceName : String
  ServiceHost : String
  ServicePort : Int
  ServiceProtoc : String
  AdditionalMeta : String
deriving DecidableEq, Repr

/-- The process-wide registry `svr_mgr.GetServiceMgrInstance()`: the registered
connections (iterated by `broadCast`; the list order stands for the arbitrary
iteration order of the Go map) and the list of service descriptors. The elements
of `ServiceInfoList` are pointers in the source, each list position owning its
own descriptor, so that an assignment through `info` updates the list in
place. -/
structure ServiceMgr where
  DataPackMap : List DataPack
  ServiceInfoList : List ServiceInfo
deriving DecidableEq, Repr

/-- Modelled from the spec: `svr_mgr.AddServiceInfo` is not under src/. The
specification says that a descriptor with a new key is appended. -/
def ServiceMgr.AddServiceInfo (m : ServiceMgr) (info : ServiceInfo) : ServiceMgr :=
  { m with ServiceInfoList := m.ServiceInfoList ++ [info] }

/-- Modelled from the spec: `svr_mgr.AddDataPack` is not under src/. The
specification says that a connection is inserted by identity. -/
def ServiceMgr.AddDataPack (m : ServiceMgr) (dp : DataPack) : ServiceMgr :=
  { m with DataPackMap := if dp ∈ m.DataPackMap then m.DataPackMap else m.DataPackMap ++ [dp] }

/-- Modelled from the spec: `svr_mgr.DelDataPack` is not under src/. The
specification says that a connection is deleted by identity and that deleting an
absent connection is not an error. -/
def ServiceMgr.DelDataPack (m : ServiceMgr) (dp : DataPack) : ServiceMgr :=
  { m with DataPackMap := m.DataPackMap.filter (fun p => p ≠ dp) }

/-- Modelled from the spec: `svr_mgr.FindServiceInfosByServiceName` is not under
src/. The specification says that it returns all descriptors whose name matches
exactly, in registration order. -/
def ServiceMgr.FindServiceInfosByServiceName (m : ServiceMgr) (name : String) :
    List ServiceInfo :=
  m.ServiceInfoList.filter (fun info => info.ServiceName = name)

/-- One call of the function parameter `sendMsg(dataPack, message)`. -/
abbrev SendCall := DataPack × Message

/-! ## Built-in handlers (lines 186-233) -/

/-- The handler `KeepAlive`: one call of `sendMsg` with the message it was given. -/
def KeepAlive (message : Message) (dataPack : DataPack) : List SendCall :=
  [(dataPack, message)]

/-- The condition of the `if` in the loop of `Register` (lines 205-207). -/
def sameKey (info serviceInfo : ServiceInfo) : Bool :=
  info.ServiceName == serviceInfo.ServiceName &&
    info.ServiceHost == serviceInfo.ServiceHost &&
    info.ServicePort == serviceInfo.ServicePort

/-- The `for ... range` loop of `Register` (lines 204-212): every descriptor of
the list with the key of `serviceInfo` gets its `AdditionalMeta` and
`ServiceProtoc` overwritten; the flag `needInsert` is cleared on a match. -/
def registerLoop (serviceInfo : ServiceInfo) :
    List ServiceInfo → Bool → List ServiceInfo × Bool
  | [], needInsert => ([], needInsert)
  | info :: rest, needInsert =>
    if sameKey info serviceInfo then
      let r := registerLoop serviceInfo rest false
      ({ info with AdditionalMeta := serviceInfo.AdditionalMeta,
                   ServiceProtoc := serviceInfo.ServiceProtoc } :: r.1, r.2)
    else
      let r := registerLoop serviceInfo rest needInsert
      (info :: r.1, r.2)

/-- The handler `Register` (lines 195-217). `jsonUnmarshal` stands for
`json.Unmarshal` into a `model.ServiceInfo` (`none` when it returns an error).
The result is the registry afterwards and the calls of `sendMsg` made. -/
def Register (jsonUnmarshal : String → Option ServiceInfo) (message : Message)
    (dataPack : DataPack) (mgr : ServiceMgr) : ServiceMgr × List SendCall :=
  match jsonUnmarshal message.body with
  | none => (mgr, [])
  | some serviceInfo =>
    let r := registerLoop serviceInfo mgr.ServiceInfoList true
    let mgr1 : ServiceMgr := { mgr with ServiceInfoList := r.1 }
    let mgr2 := if r.2 then mgr1.AddServiceInfo serviceInfo else mgr1
    (mgr2, KeepAlive message dataPack)

/-- A finite sequence of `Register` calls, each with its message and connection,
run one after the other on the registry. -/
def registerAll (jsonUnmarshal : String → Option ServiceInfo) :
    List (Message × DataPack) → ServiceMgr → ServiceMgr
  | [], mgr => mgr
  | c :: rest, mgr => registerAll jsonUnmarshal rest (Register jsonUnmarshal c.1 c.2 mgr).1

/-- The identity key of a descriptor: name, host and port. -/
def serviceKey (d : ServiceInfo) : String × String × Int :=
  (d.ServiceName, d.ServiceHost, d.ServicePort)

/-- The handler `DisCover` (lines 224-233). `jsonMarshal` stands for
`json.Marshal` on the list of descriptors (`none` when it returns an error). The
result is the sequence of calls of `sendMsg` made. -/
def DisCover (jsonMarshal : List ServiceInfo → Option String) (message : Message)
    (dataPack : DataPack) (mgr : ServiceMgr) : List SendCall :=
  let list := mgr.FindServiceInfosByServiceName message.body
  match jsonMarshal list with
  | none => []
  | some bytes => [(dataPack, { message with body := bytes })]

/-! ## Go runtime objects used by the server -/

/-- How a call ended: it returned, it raised a runtime panic, or its goroutine is
parked on a lock or a channel. Each case carries the state reached. -/
inductive Outcome (σ : Type) where
  | done (s : σ)
  | panic (reason : String) (s : σ)
  | blocked (s : σ)
deriving DecidableEq, Repr

/-- Sequencing of calls: what follows runs only when the call returned. -/
def Outcome.andThen {σ τ : Type} (lift : σ → τ) (o : Outcome σ) (k : σ → Outcome τ) :
    Outcome τ :=
  match o with
  | .done s => k s
  | .panic r s => .panic r (lift s)
  | .blocked s => .blocked (lift s)

/-- Lookup `m[k]` in a non-nil Go map. -/
def mapGet {K V : Type} [DecidableEq K] : List (K × V) → K → Option V
  | [], _ => none
  | e :: rest, k => if e.1 = k then some e.2 else mapGet rest k

/-- Assignment `m[k] = v` in a non-nil Go map. -/
def mapSet {K V : Type} [DecidableEq K] : List (K × V) → K → V → List (K × V)
  | [], k, v => [(k, v)]
  | e :: rest, k, v => if e.1 = k then (k, v) :: rest else e :: mapSet rest k v

/-- The builtin `delete(m, k)`. -/
def mapDelete {K V : Type} [DecidableEq K] (m : List (K × V)) (k : K) : List (K × V) :=
  m.filter (fun e => e.1 ≠ k)

/-- Lookup in a Go map that may be nil: reading the nil map finds nothing. -/
def nilMapGet {K V : Type} [DecidableEq K] (m : Option (List (K × V))) (k : K) : Option V :=
  match m with
  | none => none
  | some entries => mapGet entries k

/-- State of a `sync.RWMutex`: the number of read locks held and whether the
write lock is held. -/
structure RWMutex where
  readers : Nat
  writer : Bool
deriving DecidableEq, Repr

/-- The call `RLock()`: `none` when the caller has to wait (a writer holds the lock). -/
def RWMutex.RLock (m : RWMutex) : Option RWMutex :=
  if m.writer then none else some { m with readers := m.readers + 1 }

/-- The call `RUnlock()`. -/
def RWMutex.RUnlock (m : RWMutex) : RWMutex :=
  { m with readers := m.readers - 1 }

/-- The call `Lock()`: `none` when the caller has to wait, which is as long as
any read lock or the write lock is held. -/
def RWMutex.Lock (m : RWMutex) : Option RWMutex :=
  if m.writer || m.readers != 0 then none else some { m with writer := true }

/-- The call `Unlock()`. -/
def RWMutex.Unlock (m : RWMutex) : RWMutex :=
  { m with writer := false }

/-- A buffered channel of messages: content, capacity, and whether it was closed. -/
structure Chan where
  buf : List Message
  cap : Nat
  closed : Bool
deriving DecidableEq, Repr

/-- The panic text of a write to a nil map. -/
def nilMapPanic : String := "assignment to entry in nil map"

/-- The panic text of `close` on a nil channel. -/
def closeNilPanic : String := "close of nil channel"

/-- The panic text of `close` on a closed channel. -/
def closeClosedPanic : String := "close of closed channel"

/-- The panic text of a send on a closed channel. -/
def sendClosedPanic : String := "send on closed channel"

/-- The panic text of a call through a nil function value. -/
def nilFuncPanic : String := "invalid memory address or nil pointer dereference"

/-! ## The server (lines 24-179) -/

/-- The fields of `model.EvolvingServerConf` that the source reads (line 53). -/
structure EvolvingServerConf where
  BindHost : String
  ServerPort : Nat
deriving DecidableEq, Repr

/-- A handler stored in the command table. The handlers of this file are closures
over the server that call its `sendMsg`; a handler is given by the calls of
`sendMsg` it makes for a connection and an inbound message. -/
abbrev Handler := DataPack → Message → List SendCall

/-- The struct `EvolvingServer` (lines 24-29). `commands` is `none` for the nil
map. `writers` lists the writer goroutines started so far (line 161), each
identified by the connection it serves. -/
structure EvolvingServer where
  conf : EvolvingServerConf
  dataPackChanMap : List (DataPack × Chan)
  commands : Option (List (String × Handler))
  lock : RWMutex
  writers : List DataPack

/-- The method `SetCommand` (lines 119-123): takes the write lock, assigns into
`commands`, and releases the lock on the way out (deferred). -/
def SetCommand (s : EvolvingServer) (command : String) (f : Handler) :
    Outcome EvolvingServer :=
  match s.lock.Lock with
  | none => .blocked s
  | some l =>
    match s.commands with
    | none => .panic nilMapPanic { s with lock := l.Unlock }
    | some m => .done { s with commands := some (mapSet m command f), lock := l.Unlock }

/-- The constructor `NewEvolvingServer` (lines 36-45). The struct literal of line 37
sets `conf` and `dataPackChanMap` and leaves `commands` and `lock` at their zero
values. `ALive`, `Default` and `OK` are the constants of package `contents`,
which is not under src/. -/
def NewEvolvingServer (ALive Default OK : String) (conf : EvolvingServerConf) :
    Outcome EvolvingServer :=
  let evolvingServer : EvolvingServer :=
    { conf := conf, dataPackChanMap := [], commands := none,
      lock := { readers := 0, writer := false }, writers := [] }
  (SetCommand evolvingServer ALive
      (fun dataPack _ => [(dataPack, NewDefaultMessage ALive OK)])).andThen id
    (fun s1 => SetCommand s1 Default
      (fun dataPack _ => [(dataPack, NewDefaultMessage Default OK)]))

/-- One handler invocation `f(dataPack, message)` made by the reader loop. -/
structure Invocation (H : Type) where
  f : H
  dataPack : DataPack
  message : Message

/-- The dispatch step of the reader loop (lines 93-97), for a command table with
handlers of any type `H`: the invocations it makes, or the panic of calling the
nil function that a missing default entry yields. `Default` is the constant
`contents.Default`. -/
def dispatch {H : Type} (commands : Option (List (String × H))) (Default : String)
    (dataPack : DataPack) (message : Message) : Except String (List (Invocation H)) :=
  match nilMapGet commands message.command with
  | some f => .ok [{ f := f, dataPack := dataPack, message := message }]
  | none =>
    match nilMapGet commands Default with
    | some d => .ok [{ f := d, dataPack := dataPack, message := message }]
    | none => .error nilFuncPanic

/-- The method `sendMsg` (lines 153-179) up to the start of the writer goroutine,
whose body is `writerLoop` below. The read lock taken at line 154 is released by
the deferred call when the function returns or panics; it is still held when
line 158 asks for the write lock. -/
def sendMsg (dataPack : DataPack) (message : Message) (s : EvolvingServer) :
    Outcome EvolvingServer :=
  match s.lock.RLock with
  | none => .blocked s
  | some l1 =>
    let s1 : EvolvingServer := { s with lock := l1 }
    let created : Outcome EvolvingServer :=
      match mapGet s1.dataPackChanMap dataPack with
      | some _ => .done s1
      | none =>
        match s1.lock.Lock with
        | none => .blocked s1
        | some l2 =>
          .done { s1 with
            dataPackChanMap :=
              mapSet s1.dataPackChanMap dataPack { buf := [], cap := 1024, closed := false },
            lock := l2.Unlock,
            writers := s1.writers ++ [dataPack] }
    created.andThen id (fun s2 =>
      match mapGet s2.dataPackChanMap dataPack with
      | none => .blocked s2
      | some ch =>
        if ch.closed then
          .panic sendClosedPanic { s2 with lock := s2.lock.RUnlock }
        else if ch.buf.length < ch.cap then
          .done { s2 with
            dataPackChanMap :=
              mapSet s2.dataPackChanMap dataPack { ch with buf := ch.buf ++ [message] },
            lock := s2.lock.RUnlock }
        else .blocked s2)

/-- The loop of `broadCast` over the connections of the registry. -/
def broadCastLoop (msg : Message) : List DataPack → EvolvingServer → Outcome EvolvingServer
  | [], s => .done s
  | pack :: rest, s => (sendMsg pack msg s).andThen id (broadCastLoop msg rest)

/-- The method `broadCast` (lines 142-146). -/
def broadCast (mgr : ServiceMgr) (msg : Message) (s : EvolvingServer) :
    Outcome EvolvingServer :=
  broadCastLoop msg mgr.DataPackMap s

/-- The server together with the process-wide registry. -/
structure World where
  srv : EvolvingServer
  mgr : ServiceMgr

/-- The message that the teardown broadcasts (line 85). -/
def closedMessage (dataPack : DataPack) : Message :=
  NewDefaultMessage "connect_closed" (dataPack.remoteAddr ++ " closed")

/-- The deferred function of `connHandler` (lines 77-86), the teardown of a
connection. An error of `conn.Close()` is only logged. -/
def connHandlerTeardown (dataPack : DataPack) (w : World) : Outcome World :=
  let mgr1 := w.mgr.DelDataPack dataPack
  match mapGet w.srv.dataPackChanMap dataPack with
  | none => .panic closeNilPanic { w with mgr := mgr1 }
  | some ch =>
    if ch.closed then .panic closeClosedPanic { w with mgr := mgr1 }
    else
      let srv1 : EvolvingServer :=
        { w.srv with
          dataPackChanMap := mapSet w.srv.dataPackChanMap dataPack { ch with closed := true } }
      let srv2 : EvolvingServer :=
        { srv1 with dataPackChanMap := mapDelete srv1.dataPackChanMap dataPack }
      (broadCast mgr1 (closedMessage dataPack) srv2).andThen
        (fun s => { srv := s, mgr := mgr1 }) (fun s => .done { srv := s, mgr := mgr1 })

/-! ## The writer goroutine (lines 161-176) -/

/-- What the writer goroutine sees: the server, the calls of `PackMessage` made so
far, in order, and the lines logged by the writer. -/
structure WriterWorld where
  srv : EvolvingServer
  wire : List (DataPack × Message)
  logs : List String

/-- The result of a receive `msg, ok := <-ch`. -/
inductive Recv where
  | value (msg : Message) (ch : Chan)
  | closed
  | wait
deriving DecidableEq, Repr

/-- Receive from the channel found in the map: a buffered message first; when
the buffer is empty, `ok = false` on a closed channel; otherwise the goroutine
waits. A missing map entry gives the nil channel, on which a receive waits. -/
def chanRecv : Option Chan → Recv
  | none => .wait
  | some ch =>
    match ch.buf with
    | m :: rest => .value m { ch with buf := rest }
    | [] => if ch.closed then .closed else .wait

/-- How a statement list ended: it ran to its end, or it executed a `break`. -/
inductive Ctl where
  | next
  | brk
deriving DecidableEq, Repr

/-- The result of running a loop for a number of iterations: the loop was left,
the goroutine is parked inside it, or it is still iterating. -/
inductive LoopResult (σ : Type) where
  | returned (s : σ)
  | parked (s : σ)
  | running (s : σ)

/-- The only case of the `select` (lines 164-173). `PackMessage` stands for the
codec call: given the calls made before, the connection and the message, it
returns the error, if any. -/
def writerCase (PackMessage : List (DataPack × Message) → DataPack → Message → Option String)
    (dataPack : DataPack) (w : WriterWorld) : Option (Ctl × WriterWorld) :=
  match chanRecv (mapGet w.srv.dataPackChanMap dataPack) with
  | .wait => none
  | .value msg ch =>
    let srv1 : EvolvingServer :=
      { w.srv with dataPackChanMap := mapSet w.srv.dataPackChanMap dataPack ch }
    let w1 : WriterWorld := { w with srv := srv1, wire := w.wire ++ [(dataPack, msg)] }
    match PackMessage w.wire dataPack msg with
    | some err => some (.next, { w1 with logs := w1.logs ++ [err] })
    | none => some (.next, w1)
  | .closed => some (.brk, { w with logs := w.logs ++ [dataPack.remoteAddr ++ "  closed"] })

/-- A Go `select` statement (or `switch`): a `break` in one of its cases ends the
`select`, and control goes on after it. -/
def selectStmt {σ : Type} (case : σ → Option (Ctl × σ)) (w : σ) : Option (Ctl × σ) :=
  (case w).map (fun r => (Ctl.next, r.2))

/-- A Go `for { body }` loop run for at most `fuel` iterations: a `break` that
reaches the loop leaves it. -/
def forLoop {σ : Type} (body : σ → Option (Ctl × σ)) : Nat → σ → LoopResult σ
  | 0, w => .running w
  | fuel + 1, w =>
    match body w with
    | none => .parked w
    | some (.brk, w1) => .returned w1
    | some (.next, w1) => forLoop body fuel w1

/-- The body of the writer goroutine: `for { select { case ... } }`. -/
def writerLoop (PackMessage : List (DataPack × Message) → DataPack → Message → Option String)
    (dataPack : DataPack) (fuel : Nat) (w : WriterWorld) : LoopResult WriterWorld :=
  forLoop (selectStmt (writerCase PackMessage dataPack)) fuel w

/-! ## Definitions used to state the properties, and example states -/

/-- The assignment made by the loop of `Register` to one descriptor of the list. -/
def overwrite (d info : ServiceInfo) : ServiceInfo :=
  if sameKey info d then
    { info with AdditionalMeta := d.AdditionalMeta, ServiceProtoc := d.ServiceProtoc }
  else info

/-- A decoder for the examples: the body names the metadata of a descriptor of
service svc-a. -/
def demoUnmarshal (body : String) : Option ServiceInfo :=
  if body = "v1" then
    some { ServiceName := "svc-a", ServiceHost := "10.0.0.1", ServicePort := 9000,
           ServiceProtoc := "tcp", AdditionalMeta := "v1" }
  else if body = "v2" then
    some { ServiceName := "svc-a", ServiceHost := "10.0.0.1", ServicePort := 9000,
           ServiceProtoc := "http", AdditionalMeta := "v2" }
  else none

/-- A registry for the examples: two connections, one descriptor of service svc-b. -/
def demoMgr : ServiceMgr :=
  { DataPackMap := [{ ptr := 1, remoteAddr := "10.0.0.7:5000" },
                    { ptr := 2, remoteAddr := "10.0.0.8:5000" }],
    ServiceInfoList := [{ ServiceName := "svc-b", ServiceHost := "10.0.0.2",
                          ServicePort := 9100, ServiceProtoc := "tcp",
                          AdditionalMeta := "b" }] }

/-- The first connection of the examples. -/
def demoConn : DataPack := { ptr := 1, remoteAddr := "10.0.0.7:5000" }

/-- The second connection of the examples. -/
def demoPeer : DataPack := { ptr := 2, remoteAddr := "10.0.0.8:5000" }

/-- An encoder for the examples: the metadata of the descriptors, separated by
commas. -/
def demoMarshal (l : List ServiceInfo) : Option String :=
  some (",".intercalate (l.map (fun i => i.AdditionalMeta)))

/-- The state carried by an outcome. -/
def Outcome.state {σ : Type} : Outcome σ → σ
  | .done s => s
  | .panic _ s => s
  | .blocked s => s

/-- The state carried by the result of a loop. -/
def LoopResult.state {σ : Type} : LoopResult σ → σ
  | .returned s => s
  | .parked s => s
  | .running s => s

/-- Whether the loop was left. -/
def LoopResult.hasReturned {σ : Type} : LoopResult σ → Bool
  | .returned _ => true
  | .parked _ => false
  | .running _ => false

/-- A server for the examples: no queue yet, an empty command table, the lock
free. -/
def demoServer : EvolvingServer :=
  { conf := { BindHost := "0.0.0.0", ServerPort := 3301 }, dataPackChanMap := [],
    commands := some [], lock := { readers := 0, writer := false }, writers := [] }

/-- The example server with the example registry: both connections are
registered and no message was sent to either yet. -/
def demoWorld : World := { srv := demoServer, mgr := demoMgr }

/-- The example server after the queue of the first connection was created and
closed, with nothing left in it. -/
def demoClosedServer : EvolvingServer :=
  { demoServer with
    dataPackChanMap := [(demoConn, { buf := [], cap := 1024, closed := true })],
    writers := [demoConn] }

/-- The example server with two messages queued for the first connection. -/
def demoQueueServer : EvolvingServer :=
  { demoServer with
    dataPackChanMap :=
      [(demoConn, { buf := [NewDefaultMessage "alive" "OK", NewDefaultMessage "default" "OK"],
                    cap := 1024, closed := false })],
    writers := [demoConn] }

/-- A codec for the examples whose every write fails. -/
def failingPack : List (DataPack × Message) → DataPack → Message → Option String :=
  fun _ _ _ => some "write: broken pipe"

/-- Every queue of `after` is a queue of `before` with copies of `msg` appended and
nothing else. -/
def QueuesExtendedBy (msg : Message) (before after : List (DataPack × Chan)) : Prop :=
  ∀ q ch2, mapGet after q = some ch2 →
    ∃ ch n, mapGet before q = some ch ∧ ch2.buf = ch.buf ++ List.replicate n msg

/-- The example world in which both connections have an open queue; the queue of
the second one holds a reply that was not written yet. -/
def demoOpenWorld : World :=
  { srv := { demoServer with
      dataPackChanMap :=
        [(demoConn, { buf := [], cap := 1024, closed := false }),
         (demoPeer, { buf := [NewDefaultMessage "alive" "OK"], cap := 1024, closed := false })],
      writers := [demoConn, demoPeer] },
    mgr := demoMgr }

/-- A run of calls of `sendMsg` for one connection, one message after the other. -/
def sendAll (dataPack : DataPack) : List Message → EvolvingServer → Outcome EvolvingServer
  | [], s => .done s
  | m :: rest, s => (sendMsg dataPack m s).andThen id (sendAll dataPack rest)

/-! ## Registration: one descriptor per key -/

theorem sameKey_iff (a b : ServiceInfo) :
    sameKey a b = true ↔ serviceKey a = serviceKey b := by
  simp [sameKey, serviceKey, Bool.and_eq_true, and_assoc]

theorem serviceKey_overwrite (d info : ServiceInfo) :
    serviceKey (overwrite d info) = serviceKey info := by
  unfold overwrite
  split <;> rfl

theorem overwrite_of_key_ne (d info : ServiceInfo) (h : serviceKey info ≠ serviceKey d) :
    overwrite d info = info := by
  unfold overwrite
  have : sameKey info d = false := by
    cases hs : sameKey info d
    · rfl
    · exact absurd ((sameKey_iff info d).1 hs) h
  simp [this]

theorem overwrite_of_key_eq (d info : ServiceInfo) (h : serviceKey info = serviceKey d) :
    (overwrite d info).AdditionalMeta = d.AdditionalMeta ∧
      (overwrite d info).ServiceProtoc = d.ServiceProtoc := by
  unfold overwrite
  simp [(sameKey_iff info d).2 h]

theorem registerLoop_eq (d : ServiceInfo) (l : List ServiceInfo) (b : Bool) :
    registerLoop d l b = (l.map (overwrite d), b && !l.any (fun i => sameKey i d)) := by
  induction l generalizing b with
  | nil => simp [registerLoop]
  | cons info rest ih =>
    by_cases h : sameKey info d = true
    · simp [registerLoop, h, ih, overwrite]
    · simp only [Bool.not_eq_true] at h
      simp [registerLoop, h, ih, overwrite]

theorem any_sameKey_iff (d : ServiceInfo) (l : List ServiceInfo) :
    l.any (fun i => sameKey i d) = true ↔ serviceKey d ∈ l.map serviceKey := by
  simp only [List.any_eq_true, List.mem_map, sameKey_iff]

/-- The service list after one `Register` call whose body decodes to `d`. -/
theorem Register_list (ju : String → Option ServiceInfo) (m : Message) (dp : DataPack)
    (mgr : ServiceMgr) (d : ServiceInfo) (hd : ju m.body = some d) :
    (Register ju m dp mgr).1.ServiceInfoList =
      mgr.ServiceInfoList.map (overwrite d) ++
        (if serviceKey d ∈ mgr.ServiceInfoList.map serviceKey then [] else [d]) := by
  unfold Register
  rw [hd]
  simp only [registerLoop_eq, Bool.true_and]
  by_cases h : serviceKey d ∈ mgr.ServiceInfoList.map serviceKey
  · have ha := (any_sameKey_iff d mgr.ServiceInfoList).2 h
    simp [ha, h]
  · have ha : mgr.ServiceInfoList.any (fun i => sameKey i d) = false := by
      cases hb : mgr.ServiceInfoList.any (fun i => sameKey i d)
      · rfl
      · exact absurd ((any_sameKey_iff d mgr.ServiceInfoList).1 hb) h
    simp [ha, h, ServiceMgr.AddServiceInfo]

theorem map_key_overwrite (d : ServiceInfo) (l : List ServiceInfo) :
    (l.map (overwrite d)).map serviceKey = l.map serviceKey := by
  induction l with
  | nil => rfl
  | cons x xs ih => simp [serviceKey_overwrite, ih]

theorem filter_ne_overwrite (d : ServiceInfo) (l : List ServiceInfo) :
    (l.map (overwrite d)).filter (fun i => serviceKey i ≠ serviceKey d) =
      l.filter (fun i => serviceKey i ≠ serviceKey d) := by
  induction l with
  | nil => rfl
  | cons x xs ih =>
    simp only [ne_eq, decide_not] at ih ⊢
    by_cases h : serviceKey x = serviceKey d
    · simp [List.filter_cons, serviceKey_overwrite, h, ih]
    · rw [List.map_cons, overwrite_of_key_ne d x h]
      simp [List.filter_cons, h, ih]

theorem filter_eq_of_not_mem (k : String × String × Int) (l : List ServiceInfo)
    (h : k ∉ l.map serviceKey) : l.filter (fun i => serviceKey i = k) = [] := by
  rw [List.filter_eq_nil_iff]
  intro x hx
  simp only [decide_eq_true_eq]
  intro hk
  exact h (hk ▸ List.mem_map_of_mem serviceKey hx)

theorem filter_eq_overwrite (d : ServiceInfo) (l : List ServiceInfo)
    (hn : (l.map serviceKey).Nodup) (hm : serviceKey d ∈ l.map serviceKey) :
    ∃ x, (l.map (overwrite d)).filter (fun i => serviceKey i = serviceKey d) = [x] ∧
      x.AdditionalMeta = d.AdditionalMeta ∧ x.ServiceProtoc = d.ServiceProtoc := by
  induction l with
  | nil => simp at hm
  | cons y ys ih =>
    rw [List.map_cons, List.nodup_cons] at hn
    by_cases h : serviceKey y = serviceKey d
    · refine ⟨overwrite d y, ?_, overwrite_of_key_eq d y h⟩
      have hnot : serviceKey d ∉ (ys.map (overwrite d)).map serviceKey := by
        rw [map_key_overwrite, ← h]
        exact hn.1
      simp [List.filter_cons, serviceKey_overwrite, h,
        filter_eq_of_not_mem (serviceKey d) (ys.map (overwrite d)) hnot]
    · have hm2 : serviceKey d ∈ ys.map serviceKey := by
        rw [List.map_cons, List.mem_cons] at hm
        rcases hm with hm | hm
        · exact absurd hm.symm h
        · exact hm
      obtain ⟨x, hx, hmeta⟩ := ih hn.2 hm2
      refine ⟨x, ?_, hmeta⟩
      simp [List.filter_cons, serviceKey_overwrite, h, hx]

/-- One `Register` call whose body decodes to `d`, on a list with at most one
descriptor per key: the list afterwards still has at most one descriptor per
key, exactly one with the key of `d`, carrying the metadata and protocol of `d`,
and the descriptors with other keys are the ones from before. -/
theorem Register_step (ju : String → Option ServiceInfo) (m : Message) (dp : DataPack)
    (mgr : ServiceMgr) (d : ServiceInfo) (hd : ju m.body = some d)
    (hn : (mgr.ServiceInfoList.map serviceKey).Nodup) :
    ((Register ju m dp mgr).1.ServiceInfoList.map serviceKey).Nodup ∧
    (Register ju m dp mgr).1.ServiceInfoList.filter (fun i => serviceKey i ≠ serviceKey d) =
      mgr.ServiceInfoList.filter (fun i => serviceKey i ≠ serviceKey d) ∧
    ∃ x, (Register ju m dp mgr).1.ServiceInfoList.filter
        (fun i => serviceKey i = serviceKey d) = [x] ∧
      x.AdditionalMeta = d.AdditionalMeta ∧ x.ServiceProtoc = d.ServiceProtoc := by
  rw [Register_list ju m dp mgr d hd]
  by_cases h : serviceKey d ∈ mgr.ServiceInfoList.map serviceKey
  · simp only [h, if_true, List.append_nil]
    refine ⟨?_, filter_ne_overwrite d _, filter_eq_overwrite d _ hn h⟩
    rw [map_key_overwrite]
    exact hn
  · simp only [h, if_false]
    refine ⟨?_, ?_, d, ?_, rfl, rfl⟩
    · rw [List.map_append, map_key_overwrite]
      refine List.Nodup.append hn (by simp) ?_
      intro a ha hb
      simp only [List.map_cons, List.map_nil, List.mem_singleton] at hb
      exact h (hb ▸ ha)
    · rw [List.filter_append, filter_ne_overwrite]
      simp
    · have hnot : serviceKey d ∉ (mgr.ServiceInfoList.map (overwrite d)).map serviceKey := by
        rw [map_key_overwrite]
        exact h
      rw [List.filter_append, filter_eq_of_not_mem _ _ hnot]
      simp

theorem registerAll_append (ju : String → Option ServiceInfo)
    (xs ys : List (Message × DataPack)) (mgr : ServiceMgr) :
    registerAll ju (xs ++ ys) mgr = registerAll ju ys (registerAll ju xs mgr) := by
  induction xs generalizing mgr with
  | nil => rfl
  | cons c rest ih => simp [registerAll, ih]

/-- A run of `Register` calls that all decode to the key `k` keeps the list at
one descriptor per key at most and leaves the descriptors with other keys as
they were. -/
theorem registerAll_invariant (ju : String → Option ServiceInfo) (k : String × String × Int)
    (calls : List (Message × DataPack)) (mgr : ServiceMgr)
    (hn : (mgr.ServiceInfoList.map serviceKey).Nodup)
    (hc : ∀ c ∈ calls, ∃ d, ju c.1.body = some d ∧ serviceKey d = k) :
    ((registerAll ju calls mgr).ServiceInfoList.map serviceKey).Nodup ∧
    (registerAll ju calls mgr).ServiceInfoList.filter (fun i => serviceKey i ≠ k) =
      mgr.ServiceInfoList.filter (fun i => serviceKey i ≠ k) := by
  induction calls generalizing mgr with
  | nil => exact ⟨hn, rfl⟩
  | cons c rest ih =>
    obtain ⟨d, hd, hk⟩ := hc c (List.mem_cons_self c rest)
    have hstep := Register_step ju c.1 c.2 mgr d hd hn
    rw [hk] at hstep
    have hrest := ih (Register ju c.1 c.2 mgr).1 hstep.1
      (fun c2 h2 => hc c2 (List.mem_cons_of_mem c h2))
    exact ⟨hrest.1, hrest.2.trans hstep.2.1⟩

/-- Claim C1. Start from a registry with at most one descriptor per key (name,
host, port) and run a non-empty sequence of `Register` calls, `init` followed by
`last`, whose bodies all decode to descriptors with the key `k`. Afterwards the
service list holds exactly one descriptor with key `k`, its `AdditionalMeta` and
`ServiceProtoc` are those of the descriptor decoded from the last call, and the
descriptors with other keys are the same as before, in the same order. -/
theorem Register_same_key_keeps_one (ju : String → Option ServiceInfo)
    (k : String × String × Int) (init : List (Message × DataPack))
    (last : Message × DataPack) (dLast : ServiceInfo) (mgr : ServiceMgr)
    (hn : (mgr.ServiceInfoList.map serviceKey).Nodup)
    (hinit : ∀ c ∈ init, ∃ d, ju c.1.body = some d ∧ serviceKey d = k)
    (hlast : ju last.1.body = some dLast) (hk : serviceKey dLast = k) :
    (∃ x, (registerAll ju (init ++ [last]) mgr).ServiceInfoList.filter
        (fun i => serviceKey i = k) = [x] ∧
      x.AdditionalMeta = dLast.AdditionalMeta ∧ x.ServiceProtoc = dLast.ServiceProtoc) ∧
    (registerAll ju (init ++ [last]) mgr).ServiceInfoList.filter (fun i => serviceKey i ≠ k) =
      mgr.ServiceInfoList.filter (fun i => serviceKey i ≠ k) := by
  have hinv := registerAll_invariant ju k init mgr hn hinit
  have hstep := Register_step ju last.1 last.2 (registerAll ju init mgr) dLast hlast hinv.1
  rw [hk] at hstep
  rw [registerAll_append]
  simp only [registerAll]
  exact ⟨hstep.2.2, hstep.2.1.trans hinv.2⟩

/-- Two registrations of svc-a with different metadata on top of svc-b: one
descriptor of svc-a remains, with the second metadata. -/
theorem Register_same_key_keeps_one_witness :
    (demoMgr.ServiceInfoList.map serviceKey).Nodup ∧
    (∃ x, (registerAll demoUnmarshal
          ([(NewDefaultMessage "register" "v1", demoConn)] ++
            [(NewDefaultMessage "register" "v2", demoPeer)]) demoMgr).ServiceInfoList.filter
        (fun i => serviceKey i = ("svc-a", "10.0.0.1", 9000)) = [x] ∧
      x.AdditionalMeta = "v2" ∧ x.ServiceProtoc = "http") ∧
    (registerAll demoUnmarshal
          ([(NewDefaultMessage "register" "v1", demoConn)] ++
            [(NewDefaultMessage "register" "v2", demoPeer)]) demoMgr).ServiceInfoList.filter
        (fun i => serviceKey i ≠ ("svc-a", "10.0.0.1", 9000)) =
      demoMgr.ServiceInfoList.filter (fun i => serviceKey i ≠ ("svc-a", "10.0.0.1", 9000)) :=
  ⟨by decide,
   Register_same_key_keeps_one demoUnmarshal ("svc-a", "10.0.0.1", 9000)
    [(NewDefaultMessage "register" "v1", demoConn)]
    (NewDefaultMessage "register" "v2", demoPeer)
    { ServiceName := "svc-a", ServiceHost := "10.0.0.1", ServicePort := 9000,
      ServiceProtoc := "http", AdditionalMeta := "v2" }
    demoMgr (by decide)
    (by
      intro c hc
      rw [List.mem_singleton] at hc
      subst hc
      exact ⟨_, rfl, rfl⟩)
    (by rfl) rfl⟩

/-! ## Dispatch -/

/-- Claim C2. When the command table has a handler `d` under the default name and
no entry under the command name of the inbound message, the dispatch step of the
reader loop makes exactly one invocation: the handler `d`, with the same
connection and the message as it was received. -/
theorem dispatch_unknown_command {H : Type} (commands : Option (List (String × H)))
    (Default : String) (dataPack : DataPack) (message : Message) (d : H)
    (hdefault : nilMapGet commands Default = some d)
    (hmiss : nilMapGet commands message.command = none) :
    dispatch commands Default dataPack message =
      .ok [{ f := d, dataPack := dataPack, message := message }] := by
  simp [dispatch, hdefault, hmiss]

/-- A table with the entries alive and default, and a message with the command
name lookup: the default handler is invoked. Handlers are named by numbers here. -/
theorem dispatch_unknown_command_witness :
    nilMapGet (some [("alive", 10), ("default", 20)]) "default" = some 20 ∧
    nilMapGet (some [("alive", 10), ("default", 20)])
      (NewDefaultMessage "lookup" "x").command = none ∧
    dispatch (some [("alive", 10), ("default", 20)]) "default" demoConn
        (NewDefaultMessage "lookup" "x") =
      .ok [{ f := 20, dataPack := demoConn, message := NewDefaultMessage "lookup" "x" }] :=
  ⟨by decide, by decide,
   dispatch_unknown_command (some [("alive", 10), ("default", 20)]) "default" demoConn
    (NewDefaultMessage "lookup" "x") 20 (by decide) (by decide)⟩

/-! ## Discovery -/

/-- The keys of the service list after one `Register` call: the keys from before,
in the same order, followed by the new key when it was not registered yet. The
list is therefore in the order of first registration. -/
theorem Register_keeps_order (ju : String → Option ServiceInfo) (m : Message) (dp : DataPack)
    (mgr : ServiceMgr) (d : ServiceInfo) (hd : ju m.body = some d) :
    (Register ju m dp mgr).1.ServiceInfoList.map serviceKey =
      mgr.ServiceInfoList.map serviceKey ++
        (if serviceKey d ∈ mgr.ServiceInfoList.map serviceKey then [] else [serviceKey d]) := by
  rw [Register_list ju m dp mgr d hd, List.map_append, map_key_overwrite]
  split <;> simp

/-- Claim C10. Whenever `json.Marshal` returns the encoding `bytes` for the
descriptors found, `DisCover` makes exactly one call of `sendMsg`: for the
requesting connection, with a message that has the command of the request and
the body `bytes`. The encoded sequence is the service list restricted to the
descriptors whose `ServiceName` equals the request body: it keeps the order of
the list, holds every such descriptor and no other. -/
theorem DisCover_replies_matching (jsonMarshal : List ServiceInfo → Option String)
    (message : Message) (dataPack : DataPack) (mgr : ServiceMgr) (bytes : String)
    (hm : jsonMarshal (mgr.FindServiceInfosByServiceName message.body) = some bytes) :
    DisCover jsonMarshal message dataPack mgr =
      [(dataPack, { command := message.command, body := bytes })] ∧
    mgr.FindServiceInfosByServiceName message.body =
      mgr.ServiceInfoList.filter (fun i => i.ServiceName = message.body) ∧
    (mgr.FindServiceInfosByServiceName message.body).Sublist mgr.ServiceInfoList ∧
    ∀ i, i ∈ mgr.FindServiceInfosByServiceName message.body ↔
      (i ∈ mgr.ServiceInfoList ∧ i.ServiceName = message.body) := by
  refine ⟨?_, rfl, ?_, ?_⟩
  · simp [DisCover, hm]
  · exact List.filter_sublist _
  · intro i
    simp [ServiceMgr.FindServiceInfosByServiceName, List.mem_filter]

/-- A lookup of svc-b in the example registry answers with the one descriptor of
that name. -/
theorem DisCover_replies_matching_witness :
    demoMarshal (demoMgr.FindServiceInfosByServiceName
      (NewDefaultMessage "discover" "svc-b").body) = some "b" ∧
    DisCover demoMarshal (NewDefaultMessage "discover" "svc-b") demoConn demoMgr =
      [(demoConn, { command := "discover", body := "b" })] :=
  ⟨by decide,
   (DisCover_replies_matching demoMarshal (NewDefaultMessage "discover" "svc-b") demoConn
    demoMgr "b" (by decide)).1⟩

/-! ## Construction, enqueueing and teardown -/

/-- Claim C7, as the code behaves: for every configuration and all values of the
three constants, the first `SetCommand` of `NewEvolvingServer` assigns into the
nil map `commands` and panics; no server is returned and no handler is
installed. -/
theorem NewEvolvingServer_panics (ALive Default OK : String) (conf : EvolvingServerConf) :
    NewEvolvingServer ALive Default OK conf =
      .panic nilMapPanic
        { conf := conf, dataPackChanMap := [], commands := none,
          lock := { readers := 0, writer := false }, writers := [] } := rfl

/-- The method `SetCommand` on a server whose command table is not nil and whose
lock is free: the handler is stored under the command name and the lock is free
again afterwards. -/
theorem SetCommand_on_table (s : EvolvingServer) (command : String) (f : Handler)
    (m : List (String × Handler)) (hc : s.commands = some m)
    (hl : s.lock = { readers := 0, writer := false }) :
    SetCommand s command f = .done { s with commands := some (mapSet m command f) } := by
  cases s with
  | mk conf chans commands lock writers =>
    simp only at hc hl
    subst hc hl
    rfl

/-- A goroutine that holds a read lock cannot take the write lock: `Lock` waits
for all read locks, its own included. -/
theorem Lock_after_RLock (m l1 : RWMutex) (h : m.RLock = some l1) : l1.Lock = none := by
  unfold RWMutex.RLock at h
  split at h
  · exact absurd h (by simp)
  · simp only [Option.some.injEq] at h
    subst h
    simp [RWMutex.Lock]

/-- The method `sendMsg` for a connection without a queue never returns: it
waits for the read lock, or it waits at line 158 for the write lock while
holding the read lock. No queue is created and no writer goroutine is started. -/
theorem sendMsg_without_queue (dataPack : DataPack) (message : Message) (s : EvolvingServer)
    (h : mapGet s.dataPackChanMap dataPack = none) :
    ∃ l, sendMsg dataPack message s = .blocked { s with lock := l } := by
  unfold sendMsg
  cases hr : s.lock.RLock with
  | none => exact ⟨s.lock, rfl⟩
  | some l1 =>
    refine ⟨l1, ?_⟩
    simp [h, Lock_after_RLock s.lock l1 hr, Outcome.andThen]

/-- Claim C5, as the code behaves: on a server without a queue for the
connection, with the lock free, the first `sendMsg` parks its goroutine at
line 158, holding the read lock. Afterwards there is still no queue and no
writer goroutine, and a writer loop for the connection, were one started, parks
at once without a call of `PackMessage`. -/
theorem sendMsg_first_call_blocks :
    sendMsg demoConn (NewDefaultMessage "alive" "OK") demoServer =
      .blocked { demoServer with lock := { readers := 1, writer := false } } ∧
    (sendMsg demoConn (NewDefaultMessage "alive" "OK") demoServer).state.dataPackChanMap = [] ∧
    (sendMsg demoConn (NewDefaultMessage "alive" "OK") demoServer).state.writers = [] ∧
    ∀ fuel, (writerLoop (fun _ _ _ => none) demoConn (fuel + 1)
        { srv := (sendMsg demoConn (NewDefaultMessage "alive" "OK") demoServer).state,
          wire := [], logs := [] }).state.wire = [] :=
  ⟨rfl, rfl, rfl, fun _ => rfl⟩

/-- The teardown of a connection without a queue panics at line 83, after the
connection was removed from the registry and before the broadcast. -/
theorem connHandlerTeardown_without_queue (dataPack : DataPack) (w : World)
    (h : mapGet w.srv.dataPackChanMap dataPack = none) :
    connHandlerTeardown dataPack w =
      .panic closeNilPanic { w with mgr := w.mgr.DelDataPack dataPack } := by
  simp [connHandlerTeardown, h]

/-- Claim C6, as the code behaves: a connection is accepted and registered and
its reader loop ends before any message was enqueued for it. The teardown
panics with the close of a nil channel. -/
theorem connHandlerTeardown_fresh_connection_panics :
    connHandlerTeardown demoConn
        { srv := demoServer,
          mgr := ({ DataPackMap := [], ServiceInfoList := [] } : ServiceMgr).AddDataPack
            demoConn } =
      .panic closeNilPanic
        { srv := demoServer, mgr := { DataPackMap := [], ServiceInfoList := [] } } := rfl

/-- Claim C3, as the code behaves: two connections are registered and neither
has a queue. The teardown of the first one removes it from the registry and
then panics at line 83, before the broadcast: the other connection gets no
message. -/
theorem connHandlerTeardown_no_broadcast :
    connHandlerTeardown demoConn demoWorld =
      .panic closeNilPanic
        { srv := demoServer,
          mgr := { DataPackMap := [demoPeer], ServiceInfoList := demoMgr.ServiceInfoList } } ∧
    (connHandlerTeardown demoConn demoWorld).state.mgr.DataPackMap = [demoPeer] ∧
    mapGet (connHandlerTeardown demoConn demoWorld).state.srv.dataPackChanMap demoPeer = none :=
  ⟨rfl, rfl, rfl⟩

/-! ## The writer loop -/

theorem mapGet_mapSet_self {K V : Type} [DecidableEq K] (m : List (K × V)) (k : K) (v : V) :
    mapGet (mapSet m k v) k = some v := by
  induction m with
  | nil => simp [mapSet, mapGet]
  | cons e rest ih =>
    by_cases h : e.1 = k
    · simp [mapSet, mapGet, h]
    · simp [mapSet, mapGet, h, ih]

theorem mapGet_mapSet_other {K V : Type} [DecidableEq K] (m : List (K × V)) (k q : K) (v : V)
    (hq : q ≠ k) : mapGet (mapSet m k v) q = mapGet m q := by
  induction m with
  | nil => simp [mapSet, mapGet, Ne.symm hq]
  | cons e rest ih =>
    by_cases h : e.1 = k
    · have h2 : ¬ e.1 = q := fun h3 => hq (h3 ▸ h)
      simp [mapSet, mapGet, h, h2, Ne.symm hq]
    · by_cases h2 : e.1 = q
      · have hq2 : ¬ q = k := hq
        simp [mapSet, mapGet, h, h2, hq2]
      · simp [mapSet, mapGet, h, h2, ih]

theorem mapGet_mapDelete {K V : Type} [DecidableEq K] (m : List (K × V)) (k q : K) :
    mapGet (mapDelete m k) q = if q = k then none else mapGet m q := by
  induction m with
  | nil => simp [mapDelete, mapGet]
  | cons e rest ih =>
    unfold mapDelete at ih ⊢
    simp only [ne_eq, decide_not] at ih ⊢
    by_cases h : e.1 = k
    · by_cases h2 : q = k
      · subst h2
        simpa [List.filter_cons, h] using ih
      · have h3 : ¬ k = q := fun h4 => h2 h4.symm
        simp [List.filter_cons, h, h2, ih, mapGet, h3]
    · by_cases h2 : e.1 = q
      · have h3 : ¬ q = k := fun h4 => h (h2.trans h4)
        simp [List.filter_cons, h, h2, mapGet, h3]
      · simp [List.filter_cons, h, h2, mapGet, ih]

/-- The writer loop is never left, whatever the state, the codec and the number of
iterations: the only `break` of its body ends the `select`, not the `for`. -/
theorem writerLoop_hasReturned
    (PackMessage : List (DataPack × Message) → DataPack → Message → Option String)
    (dataPack : DataPack) (fuel : Nat) (w : WriterWorld) :
    (writerLoop PackMessage dataPack fuel w).hasReturned = false := by
  unfold writerLoop
  induction fuel generalizing w with
  | zero => rfl
  | succ n ih =>
    unfold forLoop
    cases hc : writerCase PackMessage dataPack w with
    | none => simp [selectStmt, hc, LoopResult.hasReturned]
    | some r => simpa [selectStmt, hc] using ih r.2

/-- On a closed and drained queue every iteration of the writer loop logs that
the connection is closed and starts over. -/
theorem writerLoop_spins_when_closed
    (PackMessage : List (DataPack × Message) → DataPack → Message → Option String)
    (fuel : Nat) (wire : List (DataPack × Message)) (logs : List String) :
    writerLoop PackMessage demoConn fuel
        { srv := demoClosedServer, wire := wire, logs := logs } =
      .running { srv := demoClosedServer, wire := wire,
                 logs := logs ++ List.replicate fuel "10.0.0.7:5000  closed" } := by
  unfold writerLoop
  induction fuel generalizing logs with
  | zero => simp [forLoop]
  | succ n ih =>
    have hc : selectStmt (writerCase PackMessage demoConn)
        { srv := demoClosedServer, wire := wire, logs := logs } =
        some (Ctl.next, { srv := demoClosedServer, wire := wire,
                          logs := logs ++ ["10.0.0.7:5000  closed"] }) := rfl
    unfold forLoop
    rw [hc]
    simp only
    rw [ih, List.replicate_succ, List.append_assoc, List.singleton_append]

/-- Claim C8, as the code behaves. The writer loop of a connection whose queue was
closed and fully drained does not terminate: as long as the closed queue is in
the table the loop keeps iterating, and for every number of iterations it is
still running; once the entry was deleted (line 84) the goroutine is parked on
the nil channel. In no state at all does the loop return. -/
theorem writerLoop_never_terminates :
    (∀ fuel, writerLoop (fun _ _ _ => none) demoConn fuel
        { srv := demoClosedServer, wire := [], logs := [] } =
      .running { srv := demoClosedServer, wire := [],
                 logs := List.replicate fuel "10.0.0.7:5000  closed" }) ∧
    (∀ fuel, writerLoop (fun _ _ _ => none) demoConn (fuel + 1)
        { srv := demoServer, wire := [], logs := [] } =
      .parked { srv := demoServer, wire := [], logs := [] }) ∧
    (∀ PackMessage dataPack fuel w,
      (writerLoop PackMessage dataPack fuel w).hasReturned = false) :=
  ⟨fun fuel => by simpa using writerLoop_spins_when_closed (fun _ _ _ => none) fuel [] [],
   fun _ => rfl,
   writerLoop_hasReturned⟩

/-- One iteration of the writer loop on a queue whose first message is `m`: the
message is taken off the queue and passed to `PackMessage`, and the loop goes
on, whether the call returned an error or not. -/
theorem writerLoop_step
    (PackMessage : List (DataPack × Message) → DataPack → Message → Option String)
    (dataPack : DataPack) (n : Nat) (w : WriterWorld) (ch : Chan) (m : Message)
    (rest : List Message) (hg : mapGet w.srv.dataPackChanMap dataPack = some ch)
    (hb : ch.buf = m :: rest) :
    ∃ logs, writerLoop PackMessage dataPack (n + 1) w =
      writerLoop PackMessage dataPack n
        { srv := { w.srv with
            dataPackChanMap := mapSet w.srv.dataPackChanMap dataPack { ch with buf := rest } },
          wire := w.wire ++ [(dataPack, m)], logs := logs } := by
  unfold writerLoop
  cases hp : PackMessage w.wire dataPack m with
  | none =>
    refine ⟨w.logs, ?_⟩
    conv => lhs; unfold forLoop
    simp [selectStmt, writerCase, hg, chanRecv, hb, hp]
  | some err =>
    refine ⟨w.logs ++ [err], ?_⟩
    conv => lhs; unfold forLoop
    simp [selectStmt, writerCase, hg, chanRecv, hb, hp]

theorem writerLoop_drains
    (PackMessage : List (DataPack × Message) → DataPack → Message → Option String)
    (dataPack : DataPack) (buf : List Message) :
    ∀ (w : WriterWorld) (ch : Chan), mapGet w.srv.dataPackChanMap dataPack = some ch →
      ch.buf = buf →
      (writerLoop PackMessage dataPack buf.length w).state.wire =
        w.wire ++ buf.map (fun m => (dataPack, m)) := by
  induction buf with
  | nil =>
    intro w ch _ _
    simp [writerLoop, forLoop, LoopResult.state]
  | cons m rest ih =>
    intro w ch hg hb
    obtain ⟨logs, hstep⟩ := writerLoop_step PackMessage dataPack rest.length w ch m rest hg hb
    rw [List.length_cons, hstep]
    rw [ih _ { ch with buf := rest } (mapGet_mapSet_self _ _ _) rfl]
    simp

/-- Claim C9, amended. Whatever `PackMessage` returns, error or not, for each
message, the writer loop goes on: after as many iterations as there are queued
messages it has passed every one of them to `PackMessage`, in queue order, and
it has not terminated. -/
theorem writerLoop_passes_all_queued
    (PackMessage : List (DataPack × Message) → DataPack → Message → Option String)
    (dataPack : DataPack) (w : WriterWorld) (ch : Chan)
    (hg : mapGet w.srv.dataPackChanMap dataPack = some ch) :
    (writerLoop PackMessage dataPack ch.buf.length w).state.wire =
        w.wire ++ ch.buf.map (fun m => (dataPack, m)) ∧
    (writerLoop PackMessage dataPack ch.buf.length w).hasReturned = false :=
  ⟨writerLoop_drains PackMessage dataPack ch.buf w ch hg rfl,
   writerLoop_hasReturned PackMessage dataPack ch.buf.length w⟩

/-- Two queued messages and a codec whose every write fails: both messages are
passed to `PackMessage`. -/
theorem writerLoop_passes_all_queued_witness :
    mapGet demoQueueServer.dataPackChanMap demoConn =
      some { buf := [NewDefaultMessage "alive" "OK", NewDefaultMessage "default" "OK"],
             cap := 1024, closed := false } ∧
    (writerLoop failingPack demoConn 2
        { srv := demoQueueServer, wire := [], logs := [] }).state.wire =
      [] ++ [(demoConn, NewDefaultMessage "alive" "OK"),
             (demoConn, NewDefaultMessage "default" "OK")] ∧
    (writerLoop failingPack demoConn 2
        { srv := demoQueueServer, wire := [], logs := [] }).hasReturned = false :=
  ⟨rfl,
   writerLoop_passes_all_queued failingPack demoConn
    { srv := demoQueueServer, wire := [], logs := [] }
    { buf := [NewDefaultMessage "alive" "OK", NewDefaultMessage "default" "OK"],
      cap := 1024, closed := false } rfl⟩

/-- Claim C9 fails as stated: the first call of `PackMessage` returns an error,
and the writer loop nevertheless passes the next queued message to `PackMessage`
and is still running afterwards. -/
theorem writerLoop_error_does_not_stop :
    failingPack [] demoConn (NewDefaultMessage "alive" "OK") = some "write: broken pipe" ∧
    (writerLoop failingPack demoConn 1
        { srv := demoQueueServer, wire := [], logs := [] }).state.wire =
      [(demoConn, NewDefaultMessage "alive" "OK")] ∧
    (writerLoop failingPack demoConn 2
        { srv := demoQueueServer, wire := [], logs := [] }).state.wire =
      [(demoConn, NewDefaultMessage "alive" "OK"),
       (demoConn, NewDefaultMessage "default" "OK")] ∧
    (writerLoop failingPack demoConn 2
        { srv := demoQueueServer, wire := [], logs := [] }).state.logs =
      ["write: broken pipe", "write: broken pipe"] ∧
    (writerLoop failingPack demoConn 2
        { srv := demoQueueServer, wire := [], logs := [] }).hasReturned = false :=
  ⟨rfl, rfl, rfl, rfl, rfl⟩

/-! ## The broadcast of the teardown -/

theorem QueuesExtendedBy.refl (msg : Message) (m : List (DataPack × Chan)) :
    QueuesExtendedBy msg m m := by
  intro q ch2 h
  exact ⟨ch2, 0, h, by simp⟩

theorem QueuesExtendedBy.trans (msg : Message) (a b c : List (DataPack × Chan))
    (hab : QueuesExtendedBy msg a b) (hbc : QueuesExtendedBy msg b c) :
    QueuesExtendedBy msg a c := by
  intro q ch3 h
  obtain ⟨ch2, n2, h2, e2⟩ := hbc q ch3 h
  obtain ⟨ch1, n1, h1, e1⟩ := hab q ch2 h2
  refine ⟨ch1, n1 + n2, h1, ?_⟩
  rw [e2, e1, List.append_assoc, List.replicate_add]

/-- Whatever way a call of `sendMsg` ends, the queues afterwards are the queues
from before, one of them possibly with the message appended. -/
theorem sendMsg_extends (dataPack : DataPack) (message : Message) (s : EvolvingServer) :
    QueuesExtendedBy message s.dataPackChanMap
      (sendMsg dataPack message s).state.dataPackChanMap := by
  unfold sendMsg
  cases hr : s.lock.RLock with
  | none => exact QueuesExtendedBy.refl _ _
  | some l1 =>
    cases hg : mapGet s.dataPackChanMap dataPack with
    | none =>
      simp only [hg, Lock_after_RLock s.lock l1 hr, Outcome.andThen, Outcome.state]
      exact QueuesExtendedBy.refl _ _
    | some ch =>
      simp only [hg, Outcome.andThen]
      by_cases hc : ch.closed = true
      · simp only [hc, if_true, Outcome.state]
        exact QueuesExtendedBy.refl _ _
      · have hc2 : ch.closed = false := by simpa using hc
        by_cases hroom : ch.buf.length < ch.cap
        · simp only [hc2, hroom, if_true, Outcome.state, Bool.false_eq_true, if_false]
          intro q ch2 h2
          by_cases hq : q = dataPack
          · subst hq
            rw [mapGet_mapSet_self] at h2
            simp only [Option.some.injEq] at h2
            subst h2
            exact ⟨ch, 1, hg, by simp⟩
          · rw [mapGet_mapSet_other _ _ _ _ hq] at h2
            exact ⟨ch2, 0, h2, by simp⟩
        · simp only [hc2, hroom, if_false, Outcome.state, Bool.false_eq_true]
          exact QueuesExtendedBy.refl _ _

theorem andThen_id_state (o : Outcome EvolvingServer)
    (k : EvolvingServer → Outcome EvolvingServer) :
    (o.andThen id k).state = o.state ∨ ∃ s, o = .done s ∧ (o.andThen id k).state = (k s).state := by
  cases o with
  | done s => exact Or.inr ⟨s, rfl, rfl⟩
  | panic r s => exact Or.inl rfl
  | blocked s => exact Or.inl rfl

theorem broadCastLoop_extends (msg : Message) (packs : List DataPack) (s : EvolvingServer) :
    QueuesExtendedBy msg s.dataPackChanMap (broadCastLoop msg packs s).state.dataPackChanMap := by
  induction packs generalizing s with
  | nil => exact QueuesExtendedBy.refl _ _
  | cons pack rest ih =>
    unfold broadCastLoop
    have h1 := sendMsg_extends pack msg s
    rcases andThen_id_state (sendMsg pack msg s) (broadCastLoop msg rest) with h | ⟨s1, hs, h⟩
    · rw [h]
      exact h1
    · rw [h]
      rw [hs] at h1
      exact QueuesExtendedBy.trans msg _ _ _ h1 (ih s1)

/-- Claim C4, amended. Whatever way the teardown of a connection ends, every
queue of the server afterwards is a queue from before with nothing appended but
copies of one message: its command name is connect_closed and its body is the
remote address of the closed connection followed by the word closed. -/
theorem connHandlerTeardown_broadcast_message (dataPack : DataPack) (w : World) :
    ∀ q ch2, mapGet (connHandlerTeardown dataPack w).state.srv.dataPackChanMap q = some ch2 →
      ∃ ch n, mapGet w.srv.dataPackChanMap q = some ch ∧
        ch2.buf = ch.buf ++ List.replicate n
          { command := "connect_closed", body := dataPack.remoteAddr ++ " closed" } := by
  have key : QueuesExtendedBy (closedMessage dataPack) w.srv.dataPackChanMap
      (connHandlerTeardown dataPack w).state.srv.dataPackChanMap := by
    unfold connHandlerTeardown
    cases hg : mapGet w.srv.dataPackChanMap dataPack with
    | none => exact QueuesExtendedBy.refl _ _
    | some ch =>
      by_cases hc : ch.closed = true
      · simp only [hc, if_true, Outcome.state]
        exact QueuesExtendedBy.refl _ _
      · have hc2 : ch.closed = false := by simpa using hc
        simp only [hc2, if_false, Bool.false_eq_true]
        have hfirst : QueuesExtendedBy (closedMessage dataPack) w.srv.dataPackChanMap
            (mapDelete (mapSet w.srv.dataPackChanMap dataPack { ch with closed := true })
              dataPack) := by
          intro q ch2 h2
          rw [mapGet_mapDelete] at h2
          by_cases hq : q = dataPack
          · simp [hq] at h2
          · simp only [hq, if_false] at h2
            rw [mapGet_mapSet_other _ _ _ _ hq] at h2
            exact ⟨ch2, 0, h2, by simp⟩
        have hcast := broadCastLoop_extends (closedMessage dataPack)
          (w.mgr.DelDataPack dataPack).DataPackMap
          { w.srv with
            dataPackChanMap :=
              mapDelete (mapSet w.srv.dataPackChanMap dataPack { ch with closed := true })
                dataPack }
        have hall := QueuesExtendedBy.trans _ _ _ _ hfirst hcast
        unfold broadCast
        cases hb : broadCastLoop (closedMessage dataPack) (w.mgr.DelDataPack dataPack).DataPackMap
            { w.srv with
              dataPackChanMap :=
                mapDelete (mapSet w.srv.dataPackChanMap dataPack { ch with closed := true })
                  dataPack } with
        | done s => rw [hb] at hall; exact hall
        | panic r s => rw [hb] at hall; exact hall
        | blocked s => rw [hb] at hall; exact hall
  exact key

/-- The teardown of the first connection in the example world: the queue of the
second connection gets the one message appended. -/
theorem connHandlerTeardown_broadcast_message_witness :
    mapGet (connHandlerTeardown demoConn demoOpenWorld).state.srv.dataPackChanMap demoPeer =
      some { buf := [NewDefaultMessage "alive" "OK",
                     { command := "connect_closed", body := "10.0.0.7:5000 closed" }],
             cap := 1024, closed := false } ∧
    ∃ ch n, mapGet demoOpenWorld.srv.dataPackChanMap demoPeer = some ch ∧
      [NewDefaultMessage "alive" "OK",
        ({ command := "connect_closed", body := "10.0.0.7:5000 closed" } : Message)] =
        ch.buf ++ List.replicate n
          { command := "connect_closed", body := demoConn.remoteAddr ++ " closed" } :=
  ⟨rfl,
   connHandlerTeardown_broadcast_message demoConn demoOpenWorld demoPeer
    { buf := [NewDefaultMessage "alive" "OK",
              { command := "connect_closed", body := "10.0.0.7:5000 closed" }],
      cap := 1024, closed := false } rfl⟩

/-- Claim C4 fails as stated: the teardown of the first connection of the example
world puts a message into the queue of the second one that was not there
before, and neither is its command name the text connection_closed nor is its
body the remote address of the closed connection. -/
theorem connHandlerTeardown_message_differs :
    (mapGet (connHandlerTeardown demoConn demoOpenWorld).state.srv.dataPackChanMap
        demoPeer).map Chan.buf =
      some [NewDefaultMessage "alive" "OK",
            { command := "connect_closed", body := "10.0.0.7:5000 closed" }] ∧
    (mapGet demoOpenWorld.srv.dataPackChanMap demoPeer).map Chan.buf =
      some [NewDefaultMessage "alive" "OK"] ∧
    ("connect_closed" : String) ≠ "connection_closed" ∧
    ("10.0.0.7:5000 closed" : String) ≠ demoConn.remoteAddr :=
  ⟨rfl, rfl, by decide, by decide⟩

/-! ## What teardown and enqueueing do once the queues exist -/

theorem RUnlock_after_RLock (m : RWMutex) (h : m.writer = false) :
    m.RLock = some { readers := m.readers + 1, writer := false } ∧
      ({ readers := m.readers + 1, writer := false } : RWMutex).RUnlock = m := by
  cases m with
  | mk r wr =>
    simp only at h
    subst h
    simp [RWMutex.RLock, RWMutex.RUnlock]

/-- The method `sendMsg` for a connection with an open queue that has room, no
writer holding the lock: the message is appended to the queue, and nothing else
changes. -/
theorem sendMsg_with_queue (dataPack : DataPack) (message : Message) (s : EvolvingServer)
    (ch : Chan) (hlock : s.lock.writer = false)
    (hg : mapGet s.dataPackChanMap dataPack = some ch) (hopen : ch.closed = false)
    (hroom : ch.buf.length < ch.cap) :
    sendMsg dataPack message s =
      .done { s with
        dataPackChanMap :=
          mapSet s.dataPackChanMap dataPack { ch with buf := ch.buf ++ [message] } } := by
  obtain ⟨h1, h2⟩ := RUnlock_after_RLock s.lock hlock
  unfold sendMsg
  rw [h1]
  simp only [hg, Outcome.andThen, hopen, hroom, if_true, Bool.false_eq_true, if_false, h2]

theorem broadCastLoop_done (msg : Message) (packs : List DataPack) :
    ∀ (s : EvolvingServer), s.lock.writer = false → packs.Nodup →
      (∀ q ∈ packs, ∃ cq, mapGet s.dataPackChanMap q = some cq ∧ cq.closed = false ∧
        cq.buf.length < cq.cap) →
      ∃ s2, broadCastLoop msg packs s = .done s2 ∧ s2.lock = s.lock ∧
        (∀ q ∈ packs, ∃ cq, mapGet s.dataPackChanMap q = some cq ∧
          mapGet s2.dataPackChanMap q = some { cq with buf := cq.buf ++ [msg] }) ∧
        (∀ q, q ∉ packs → mapGet s2.dataPackChanMap q = mapGet s.dataPackChanMap q) := by
  induction packs with
  | nil =>
    intro s _ _ _
    exact ⟨s, rfl, rfl, by simp, fun _ _ => rfl⟩
  | cons pack rest ih =>
    intro s hlock hnd hq
    rw [List.nodup_cons] at hnd
    obtain ⟨cp, hcp, hopen, hroom⟩ := hq pack (List.mem_cons_self pack rest)
    have hsend := sendMsg_with_queue pack msg s cp hlock hcp hopen hroom
    have hne : ∀ q ∈ rest, q ≠ pack := fun q hqr h => hnd.1 (h ▸ hqr)
    obtain ⟨s2, hrun, hl2, hin, hout⟩ := ih
      { s with dataPackChanMap :=
          mapSet s.dataPackChanMap pack { cp with buf := cp.buf ++ [msg] } }
      hlock hnd.2
      (fun q hqr => by
        simp only
        rw [mapGet_mapSet_other _ _ _ _ (hne q hqr)]
        exact hq q (List.mem_cons_of_mem pack hqr))
    refine ⟨s2, ?_, hl2, ?_, ?_⟩
    · unfold broadCastLoop
      rw [hsend]
      exact hrun
    · intro q hqm
      rw [List.mem_cons] at hqm
      rcases hqm with hqp | hqr
      · subst hqp
        refine ⟨cp, hcp, ?_⟩
        rw [hout q hnd.1]
        exact mapGet_mapSet_self _ _ _
      · obtain ⟨cq, h1, h2⟩ := hin q hqr
        simp only at h1
        rw [mapGet_mapSet_other _ _ _ _ (hne q hqr)] at h1
        exact ⟨cq, h1, h2⟩
    · intro q hqn
      rw [List.mem_cons, not_or] at hqn
      rw [hout q hqn.2]
      exact mapGet_mapSet_other _ _ _ _ hqn.1

/-- What the teardown does when the queues exist: no writer holds the lock, the
connection has an open queue, and every other registered connection has an open
queue with room. Then the teardown returns, the connection is gone from the
registry and from the queue table, and the queue of every other registered
connection got exactly one message appended, the one of line 85. -/
theorem connHandlerTeardown_broadcasts_once (dataPack : DataPack) (w : World) (ch : Chan)
    (hlock : w.srv.lock.writer = false)
    (hg : mapGet w.srv.dataPackChanMap dataPack = some ch) (hopen : ch.closed = false)
    (hnd : w.mgr.DataPackMap.Nodup)
    (hq : ∀ q ∈ w.mgr.DataPackMap, q ≠ dataPack →
      ∃ cq, mapGet w.srv.dataPackChanMap q = some cq ∧ cq.closed = false ∧
        cq.buf.length < cq.cap) :
    ∃ w2, connHandlerTeardown dataPack w = .done w2 ∧
      dataPack ∉ w2.mgr.DataPackMap ∧
      mapGet w2.srv.dataPackChanMap dataPack = none ∧
      ∀ q ∈ w.mgr.DataPackMap, q ≠ dataPack →
        ∃ cq, mapGet w.srv.dataPackChanMap q = some cq ∧
          mapGet w2.srv.dataPackChanMap q =
            some { cq with buf := cq.buf ++ [closedMessage dataPack] } := by
  have hmap : ∀ q, q ≠ dataPack →
      mapGet (mapDelete (mapSet w.srv.dataPackChanMap dataPack { ch with closed := true })
        dataPack) q = mapGet w.srv.dataPackChanMap q := by
    intro q hne
    rw [mapGet_mapDelete]
    simp only [hne, if_false]
    exact mapGet_mapSet_other _ _ _ _ hne
  have hmem : ∀ q, q ∈ (w.mgr.DelDataPack dataPack).DataPackMap ↔
      (q ∈ w.mgr.DataPackMap ∧ q ≠ dataPack) := by
    intro q
    simp [ServiceMgr.DelDataPack, List.mem_filter]
  obtain ⟨s2, hrun, _, hin, hout⟩ := broadCastLoop_done (closedMessage dataPack)
    (w.mgr.DelDataPack dataPack).DataPackMap
    { w.srv with
      dataPackChanMap :=
        mapDelete (mapSet w.srv.dataPackChanMap dataPack { ch with closed := true }) dataPack }
    hlock (List.Nodup.filter _ hnd)
    (fun q hqm => by
      simp only
      rw [hmap q ((hmem q).1 hqm).2]
      exact hq q ((hmem q).1 hqm).1 ((hmem q).1 hqm).2)
  refine ⟨{ srv := s2, mgr := w.mgr.DelDataPack dataPack }, ?_, ?_, ?_, ?_⟩
  · unfold connHandlerTeardown broadCast
    simp only [hg, hopen, Bool.false_eq_true, if_false]
    rw [hrun]
    rfl
  · exact fun h => ((hmem dataPack).1 h).2 rfl
  · simp only
    rw [hout dataPack (fun h => ((hmem dataPack).1 h).2 rfl), mapGet_mapDelete]
    simp
  · intro q hqm hne
    obtain ⟨cq, h1, h2⟩ := hin q ((hmem q).2 ⟨hqm, hne⟩)
    simp only at h1
    rw [hmap q hne] at h1
    exact ⟨cq, h1, h2⟩

theorem sendAll_with_queue (dataPack : DataPack) (msgs : List Message) :
    ∀ (s : EvolvingServer) (ch : Chan), s.lock.writer = false →
      mapGet s.dataPackChanMap dataPack = some ch → ch.closed = false →
      ch.buf.length + msgs.length ≤ ch.cap →
      ∃ s2, sendAll dataPack msgs s = .done s2 ∧
        mapGet s2.dataPackChanMap dataPack = some { ch with buf := ch.buf ++ msgs } := by
  induction msgs with
  | nil =>
    intro s ch _ hg _ _
    exact ⟨s, rfl, by simpa using hg⟩
  | cons m rest ih =>
    intro s ch hlock hg hopen hroom
    rw [List.length_cons] at hroom
    have hsend := sendMsg_with_queue dataPack m s ch hlock hg hopen (by omega)
    obtain ⟨s2, hrun, hres⟩ := ih
      { s with dataPackChanMap :=
          mapSet s.dataPackChanMap dataPack { ch with buf := ch.buf ++ [m] } }
      { ch with buf := ch.buf ++ [m] } hlock (mapGet_mapSet_self _ _ _) hopen
      (by simp only [List.length_append, List.length_singleton]; omega)
    refine ⟨s2, ?_, ?_⟩
    · unfold sendAll
      rw [hsend]
      exact hrun
    · rw [hres]
      simp

/-- The FIFO law on a connection whose queue exists already: the queue is open
and empty, no writer holds the lock, and at most as many messages as the queue
has room for are passed to `sendMsg` before the writer loop runs. Then every
call returns, and the writer loop passes exactly these messages to
`PackMessage`, in the order they were enqueued. -/
theorem sendAll_then_drain_is_FIFO
    (PackMessage : List (DataPack × Message) → DataPack → Message → Option String)
    (dataPack : DataPack) (msgs : List Message) (s : EvolvingServer) (ch : Chan)
    (hlock : s.lock.writer = false) (hg : mapGet s.dataPackChanMap dataPack = some ch)
    (hopen : ch.closed = false) (hempty : ch.buf = []) (hroom : msgs.length ≤ ch.cap) :
    ∃ s2, sendAll dataPack msgs s = .done s2 ∧
      (writerLoop PackMessage dataPack msgs.length
        { srv := s2, wire := [], logs := [] }).state.wire =
        msgs.map (fun m => (dataPack, m)) := by
  obtain ⟨s2, hrun, hres⟩ := sendAll_with_queue dataPack msgs s ch hlock hg hopen
    (by rw [hempty]; simpa using hroom)
  refine ⟨s2, hrun, ?_⟩
  rw [hempty, List.nil_append] at hres
  have := writerLoop_drains PackMessage dataPack msgs { srv := s2, wire := [], logs := [] }
    { ch with buf := msgs } hres rfl
  simpa using this

end EvolvingRpc
